import Mathlib

/-!
Shallow embedding of the push-board orchestration core of
cisco-netmig/script-push-board.

Source files embedded:
- src/workers.py : `PushWorker` (the per-task worker state machine).
- src/ui.py      : `PersistantList` (the durable task store),
                   `PushBoardTable` (task rows and worker handles),
                   `Form` (push/abort orchestration and status application).

Modelling conventions:
- A task record (the Python dict with keys target/config/save/status) is the
  structure `Task`; the status field is kept as a `String`, exactly the
  literals the source emits and compares ("Pending", "Connecting", "Pushing",
  "Pushed", "Aborted", "Failed").
- External transport calls (GenericHandler construction, send_config_set,
  save_config, close) are modelled by an environment `Env` of boolean
  outcomes: each fallible call either returns or raises.  Per the external
  interface contract of the capability, connect/sendConfig/saveConfig may
  fail; `Session.close()` has no failure outcome, so `close` is modelled as
  non-raising.
- Qt signal emission and logging are side effects with no failure mode; the
  emitted status strings are collected in order in `RunResult.emitted`, and
  the external transport calls made, in order, in `RunResult.calls`.
- File persistence is modelled by carrying the last written document
  (`PersistantList.file`); `json.dump`/`json.load` of these records is a
  lossless round trip (strings and booleans only).
-/

namespace PushBoard

/-- One task record: the dict built in `PushBoardTable.add_row`
(src/ui.py lines 249-254). -/
structure Task where
  target : String
  config : String
  save : Bool
  status : String
deriving DecidableEq

/-- The durable task store `PersistantList` (src/ui.py lines 12-51).
`mem` is the in-memory list content; `file` is the document currently on
disk at `self.filepath` (`none` when the file does not exist). -/
structure PersistantList where
  mem : List Task
  file : Option (List Task)
deriving DecidableEq

namespace PersistantList

/-- `dump` (src/ui.py lines 20-24): write the whole list to the file. -/
def dump (p : PersistantList) : PersistantList :=
  { p with file := some p.mem }

/-- `load` (src/ui.py lines 26-31): if the file exists, extend the
in-memory list with its content. -/
def load (p : PersistantList) : PersistantList :=
  match p.file with
  | some d => { p with mem := p.mem ++ d }
  | none => p

/-- `__setitem__` (src/ui.py lines 33-36): set an item, then dump.
Out-of-range indices raise in Python; `List.set` is only used at valid
indices in the development. -/
def setItem (p : PersistantList) (i : Nat) (t : Task) : PersistantList :=
  dump { p with mem := p.mem.set i t }

/-- `append` (src/ui.py lines 38-41): append an item, then dump. -/
def append (p : PersistantList) (t : Task) : PersistantList :=
  dump { p with mem := p.mem ++ [t] }

/-- `remove` (src/ui.py lines 43-46): remove the first occurrence equal to
the given item (Python `list.remove` semantics), then dump. -/
def remove (p : PersistantList) (t : Task) : PersistantList :=
  dump { p with mem := p.mem.erase t }

/-- `clear` (src/ui.py lines 48-51): clear the list, then dump. -/
def clear (p : PersistantList) : PersistantList :=
  dump { p with mem := [] }

end PersistantList

/-- One mutating call on the store: the four overridden mutators of
`PersistantList`. -/
inductive Mutation where
  | mAppend (t : Task)
  | mSet (i : Nat) (t : Task)
  | mRemove (t : Task)
  | mClear
deriving DecidableEq

/-- Apply one mutating store call. -/
def applyMut (p : PersistantList) : Mutation → PersistantList
  | Mutation.mAppend t => p.append t
  | Mutation.mSet i t => p.setItem i t
  | Mutation.mRemove t => p.remove t
  | Mutation.mClear => p.clear

/-- The in-memory content observed by constructing a fresh `PersistantList`
at the same path (src/ui.py line 18: load the file if it exists, else start
empty): the constructor starts from an empty list and `load` extends it. -/
def freshLoad (f : Option (List Task)) : List Task :=
  (PersistantList.load { mem := [], file := f }).mem

/-- The external transport calls a worker can make on the session/handler
(src/workers.py lines 36, 46, 52, 54, 61). -/
inductive ExtCall where
  | connect
  | sendConfigSet
  | saveConfig
  | close
deriving DecidableEq

/-- Outcome environment for one execution of `PushWorker.run`
(src/workers.py lines 19-65): the value of `_abort_requested` at each of the
three checkpoints (lines 21, 44, 56), and whether each fallible external
call returns normally or raises. -/
structure Env where
  abort1 : Bool
  abort2 : Bool
  abort3 : Bool
  connectOk : Bool
  sendOk : Bool
  saveOk : Bool
deriving DecidableEq

/-- Observable outcome of one execution of `PushWorker.run`: the status
strings emitted on `status_signal` in order, the external transport calls
made in order, and whether a session was successfully opened. -/
structure RunResult where
  emitted : List String
  calls : List ExtCall
  opened : Bool
deriving DecidableEq

namespace PushWorker

/-- `PushWorker.run` (src/workers.py lines 19-65), branch by branch:
- checkpoint 1 (lines 21-23): abort already requested, emit "Aborted", return;
- lines 25-42: emit "Connecting", build the handler; a raise anywhere up to
  and including the `GenericHandler` construction lands in the bare
  `except` (lines 63-65), which logs and emits "Failed";
- checkpoint 2 (lines 44-47): emit "Aborted", close the handler, return;
- lines 50-54: emit "Pushing", `send_config_set`, and if `save`,
  `save_config`; a raise lands in the `except`, emitting "Failed" with the
  handler never closed;
- checkpoint 3 (lines 56-59): emit "Aborted" or "Pushed";
- line 61: close the handler. -/
def run (save : Bool) (e : Env) : RunResult :=
  if e.abort1 then
    { emitted := ["Aborted"], calls := [], opened := false }
  else if !e.connectOk then
    { emitted := ["Connecting", "Failed"], calls := [ExtCall.connect], opened := false }
  else if e.abort2 then
    { emitted := ["Connecting", "Aborted"],
      calls := [ExtCall.connect, ExtCall.close], opened := true }
  else if !e.sendOk then
    { emitted := ["Connecting", "Pushing", "Failed"],
      calls := [ExtCall.connect, ExtCall.sendConfigSet], opened := true }
  else if save && !e.saveOk then
    { emitted := ["Connecting", "Pushing", "Failed"],
      calls := [ExtCall.connect, ExtCall.sendConfigSet, ExtCall.saveConfig], opened := true }
  else
    { emitted := ["Connecting", "Pushing", if e.abort3 then "Aborted" else "Pushed"],
      calls := [ExtCall.connect, ExtCall.sendConfigSet]
        ++ (if save then [ExtCall.saveConfig] else []) ++ [ExtCall.close],
      opened := true }

end PushWorker

/-- A status string is terminal when it is one of the three final statuses. -/
def isTerminal (s : String) : Bool :=
  s == "Pushed" || s == "Aborted" || s == "Failed"

/-- The status-sequence property claimed of every worker execution: the
emitted list is a truncated prefix of ["Connecting", "Pushing"] optionally
followed by a single terminal status; no status repeats, no status follows
a terminal one, and at most one terminal status occurs. -/
def goodTrace (l : List String) : Prop :=
  ∃ p t,
    (p = [] ∨ p = ["Connecting"] ∨ p = ["Connecting", "Pushing"]) ∧
    (t = [] ∨ ∃ s, isTerminal s = true ∧ t = [s]) ∧
    l = p ++ t ∧
    l.Nodup ∧
    (∀ s ∈ l.dropLast, isTerminal s = false) ∧
    l.countP isTerminal ≤ 1

/-- State of the push board as the orchestrator sees it
(`PushBoardTable.__init__`, src/ui.py lines 136-137): `data` is the
in-memory content of the `PersistantList` of task records, `workers` the
parallel list of worker handles (a handle is modelled by a numeric worker
id; `none` is the placeholder appended before any push starts at a
position).  Persistence of `data` is modelled separately by
`PersistantList`; the Qt table rows mirror `data` and are not modelled. -/
structure BoardState where
  data : List Task
  workers : List (Option Nat)
deriving DecidableEq

/-- Python `list.insert(i, x)`: insert before position `i`, clamping `i`
to the list length (used by `Form._push`, src/ui.py line 408). -/
def pyInsert (l : List (Option Nat)) (i : Nat) (x : Option Nat) : List (Option Nat) :=
  l.take i ++ x :: l.drop i

/-- `PushBoardTable.add_row` (src/ui.py lines 247-257): build the record,
append it to `data`, append a `None` handle to `workers` (the Qt row
insertion of `_insert_row` is presentation only). -/
def add_row (st : BoardState) (target config status : String) (save : Bool) : BoardState :=
  { data := st.data ++ [{ target := target, config := config, save := save, status := status }],
    workers := st.workers ++ [none] }

/-- `PushBoardTable.delete_row` (src/ui.py lines 259-265) at selected row
`i`: after removing the Qt row, if `data` is non-empty, call
`self.data.remove(self.data[i])` - which removes the FIRST record equal to
the record at position `i` (Python `list.remove`) - and pop the handle at
position `i`.  An out-of-range `i` raises in Python before mutating
`data`/`workers`; the model leaves the state unchanged there. -/
def delete_row (st : BoardState) (i : Nat) : BoardState :=
  if st.data.isEmpty then st
  else
    match st.data.get? i with
    | none => st
    | some t => { data := st.data.erase t, workers := st.workers.eraseIdx i }

/-- `PushBoardTable.clear_all` (src/ui.py lines 276-282): clear `data` and
`workers` (label text and logging are presentation only). -/
def clear_all (_st : BoardState) : BoardState :=
  { data := [], workers := [] }

/-- `Form._push` (src/ui.py lines 395-408) at position `index` with worker
id `w`: if the target or the configuration is empty, log and return
without spawning; otherwise create a `PushWorker`, start it, connect its
`status_signal` to `_update_status index`, and `workers.insert(index, worker)`.
Returns the new state and the spawn record `(index, w)` when a worker was
created (the spawned worker remains bound to `index` through the connected
lambda). -/
def _push (st : BoardState) (index : Nat) (target config : String) (w : Nat) :
    BoardState × Option (Nat × Nat) :=
  if target = "" ∨ config = "" then (st, none)
  else ({ st with workers := pyInsert st.workers index (some w) }, some (index, w))

/-- `Form._update_status` (src/ui.py lines 444-448) for an event bound to
`index`: read `data[index]`, set its status field, and write it back via
`update_row` (whose `self.data[row_index] = config_data` persists it).  An
out-of-range `index` raises in Python before any store mutation; the model
leaves the state unchanged there. -/
def _update_status (st : BoardState) (index : Nat) (s : String) : BoardState :=
  match st.data.get? index with
  | none => st
  | some cd => { st with data := st.data.set index { cd with status := s } }

/-- Loop body of `Form.push_all` (src/ui.py lines 410-417), rendered as
structural recursion over the task list with the running enumeration index
`i`: for each record whose status is not "Pushed", call `_push` (worker
ids are the positions; `_push` never mutates `data`, so iterating the
original list agrees with iterating the live list).  Returns the final
state and all spawn records in order. -/
def pushAllFrom (st : BoardState) (i : Nat) : List Task → BoardState × List (Nat × Nat)
  | [] => (st, [])
  | t :: rest =>
    if t.status ≠ "Pushed" then
      ((pushAllFrom (_push st i t.target t.config i).1 (i + 1) rest).1,
        (_push st i t.target t.config i).2.toList ++
          (pushAllFrom (_push st i t.target t.config i).1 (i + 1) rest).2)
    else pushAllFrom st (i + 1) rest

/-- `Form.push_all` (src/ui.py lines 410-417). -/
def push_all (st : BoardState) : BoardState × List (Nat × Nat) :=
  pushAllFrom st 0 st.data

/-- Loop body of `Form.push_selected` (src/ui.py lines 419-428) over the
iteration order `sel` of the selected-row set: read `data[index]` and push
when its status is not "Pushed".  An out-of-range index raises in Python,
aborting the remaining iterations; the model stops there. -/
def pushSelectedGo (st : BoardState) : List Nat → BoardState × List (Nat × Nat)
  | [] => (st, [])
  | i :: rest =>
    match st.data.get? i with
    | none => (st, [])
    | some cd =>
      if cd.status ≠ "Pushed" then
        ((pushSelectedGo (_push st i cd.target cd.config i).1 rest).1,
          (_push st i cd.target cd.config i).2.toList ++
            (pushSelectedGo (_push st i cd.target cd.config i).1 rest).2)
      else pushSelectedGo st rest

/-- `Form.push_selected` (src/ui.py lines 419-428); `sel` is the iteration
order of `set(row.row() for row in selected_rows)`. -/
def push_selected (st : BoardState) (sel : List Nat) : BoardState × List (Nat × Nat) :=
  pushSelectedGo st sel

/-- A record is actually pushed by `_push` when its status is not "Pushed"
(checked by the callers) and its target and config are non-empty (checked
by `_push` itself). -/
def pushable (t : Task) : Bool :=
  decide (t.status ≠ "Pushed") && decide (t.target ≠ "") && decide (t.config ≠ "")

/-- The abort flag read at a checkpoint occurring at logical time `c`,
when the abort request (`PushWorker.abort`, src/workers.py lines 67-70)
arrives at time `t` (`none` when no abort is ever requested): the
checkpoint sees the flag set exactly when the request is not later than
the checkpoint.  Checkpoints 1, 2, 3 of `run` occur at times 1, 2, 3; the
emission of the terminal status at checkpoint 3 is complete by time 3, so
a request with `4 ≤ t` arrives after "Pushed" was emitted. -/
def abortSeen (t : Option Nat) (c : Nat) : Bool :=
  match t with
  | none => false
  | some k => decide (k ≤ c)

/-- The worker environment produced by external-call outcomes plus an
abort request arriving at time `t`. -/
def envAt (connectOk sendOk saveOk : Bool) (t : Option Nat) : Env :=
  { abort1 := abortSeen t 1, abort2 := abortSeen t 2, abort3 := abortSeen t 3,
    connectOk := connectOk, sendOk := sendOk, saveOk := saveOk }

/-- `PushWorker.run` under an abort request arriving at time `t`. -/
def runAt (save connectOk sendOk saveOk : Bool) (t : Option Nat) : RunResult :=
  PushWorker.run save (envAt connectOk sendOk saveOk t)

/-- The path conditions under which an execution of `PushWorker.run` hits
the bare `except` clause (src/workers.py lines 63-65): some external call
raised before a return statement was reached. -/
def failEnv (save : Bool) (e : Env) : Bool :=
  !e.abort1 && (!e.connectOk || (!e.abort2 && (!e.sendOk || (save && !e.saveOk))))

/-- Setting position `i` leaves every other position unchanged. -/
theorem list_set_get_ne {α : Type} :
    ∀ (l : List α) (i j : Nat) (a : α), i ≠ j → (l.set i a).get? j = l.get? j
  | [], _, _, _, _ => rfl
  | _ :: _, 0, 0, _, h => absurd rfl h
  | _ :: _, 0, _ + 1, _, _ => rfl
  | _ :: _, _ + 1, 0, _, _ => rfl
  | _ :: xs, i + 1, j + 1, a, h =>
    list_set_get_ne xs i j a (fun e => h (by rw [e]))

/-- Setting a valid position stores the new element there. -/
theorem list_set_get_self {α : Type} :
    ∀ (l : List α) (i : Nat) (a : α), i < l.length → (l.set i a).get? i = some a
  | [], _, _, h => absurd h (by simp)
  | _ :: _, 0, _, _ => rfl
  | _ :: xs, i + 1, a, h => list_set_get_self xs i a (Nat.lt_of_succ_lt_succ h)

/-- A position holding an element is inside the list. -/
theorem list_get_some_lt {α : Type} :
    ∀ (l : List α) (i : Nat) (a : α), l.get? i = some a → i < l.length
  | [], _, _, h => nomatch h
  | _ :: _, 0, _, _ => Nat.succ_pos _
  | _ :: xs, i + 1, a, h => Nat.succ_lt_succ (list_get_some_lt xs i a h)

/-- A position inside the list holds an element. -/
theorem list_lt_get_some {α : Type} :
    ∀ (l : List α) (i : Nat), i < l.length → ∃ a, l.get? i = some a
  | [], _, h => absurd h (by simp)
  | a :: _, 0, _ => ⟨a, rfl⟩
  | _ :: xs, i + 1, h => list_lt_get_some xs i (Nat.lt_of_succ_lt_succ h)

/-- A concrete valid task record used as witness data. -/
def taskA : Task :=
  { target := "r1.example.com", config := "conf-a", save := true, status := "Pending" }

/-- A second concrete task record, distinct from `taskA`. -/
def taskB : Task :=
  { target := "r2.example.com", config := "conf-b", save := true, status := "Pending" }

/-- A board holding one task whose position 0 already has a running worker
(handle id 1). -/
def c4Board : BoardState := { data := [taskA], workers := [some 1] }

/-- C1: the claim states that `_push` preserves `len(data) == len(workers)`.
It does not: `Form._push` (src/ui.py line 408) calls
`workers.insert(index, worker)`, which INSERTS a handle and grows `workers`
by one while `data` is unchanged, so after one push on a one-task board the
handle list has length 2 and the store length 1.  The surrounding code
relies on the positional pairing (`add_row` appends one `None` per record,
`delete_row` pops the handle at the selected row, `abort_selected` aborts
`workers[index]`), so the insertion is a slip for an index assignment. -/
theorem c1_push_breaks_length_invariant :
    (_push c4Board 0 "r1.example.com" "conf-a" 2).1.workers.length = 2 ∧
    (_push c4Board 0 "r1.example.com" "conf-a" 2).1.data.length = 1 ∧
    ¬ (_push c4Board 0 "r1.example.com" "conf-a" 2).1.workers.length =
      (_push c4Board 0 "r1.example.com" "conf-a" 2).1.data.length := by decide

/-- Environment in which no abort is requested, the connection succeeds,
and `send_config_set` raises. -/
def envSendFails : Env :=
  { abort1 := false, abort2 := false, abort3 := false,
    connectOk := true, sendOk := false, saveOk := true }

/-- C3: the claim states the session is closed on every exit path.  It is
not: when `send_config_set` (or `save_config`) raises after a successful
connection, control jumps to the bare `except` (src/workers.py lines
63-65), which emits "Failed" and returns without ever calling
`handler.close()` - there is no `finally`.  The session is opened and the
worker returns without releasing it. -/
theorem c3_session_left_open :
    (PushWorker.run true envSendFails).opened = true ∧
    ExtCall.close ∉ (PushWorker.run true envSendFails).calls ∧
    (PushWorker.run true envSendFails).emitted = ["Connecting", "Pushing", "Failed"] := by
  decide

/-- C5: the claim states `delete_row` removes exactly the record at the
selected position even when an equal record exists elsewhere.  It does
not: `self.data.remove(self.data[row_index])` (src/ui.py line 264) removes
the FIRST record equal to the one at the selected position.  On the store
[A, B, A] with row 2 selected, the code removes the record at position 0,
leaving [B, A] instead of the claimed [A, B] - while the Qt table row 2
and the handle at position 2 are the ones removed, desynchronising table,
store and handles. -/
theorem c5_delete_removes_first_equal :
    (delete_row { data := [taskA, taskB, taskA], workers := [none, none, none] } 2).data =
      [taskB, taskA] ∧
    [taskB, taskA] ≠ [taskA, taskB] ∧
    (delete_row { data := [taskA, taskB, taskA], workers := [none, none, none] } 2).workers.length = 2 := by
  decide

/-- C4 counterexample: the claim states that a re-push at a position
replaces the prior handle and that the older worker's late status events
are not applied to that position.  Both parts fail on the code: `_push`
INSERTS the new handle (the prior handle survives, shifted to position 1),
and a late event of the older worker - still connected to
`_update_status` with the same captured index - does change the store
entry at position 0. -/
theorem c4_replace_and_drop_fail :
    (_push c4Board 0 "r1.example.com" "conf-a" 2).1.workers ≠ c4Board.workers.set 0 (some 2) ∧
    (_update_status (_push c4Board 0 "r1.example.com" "conf-a" 2).1 0 "Failed").data ≠
      (_push c4Board 0 "r1.example.com" "conf-a" 2).1.data := by decide

/-- C4 as amended: starting a push at a position inserts the new handle at
that position, shifting the prior handle one slot to the right rather than
replacing it, and leaves the store unchanged; a status event bound to a
position - whether from the newer or from an older, replaced worker - is
applied to the task store entry at that position unconditionally. -/
theorem c4_amended_insert_shifts_and_applies (st : BoardState) (i w : Nat)
    (tg cf s : String) (t : Task)
    (htg : tg ≠ "") (hcf : cf ≠ "") (ht : st.data.get? i = some t) :
    (_push st i tg cf w).1.workers = st.workers.take i ++ some w :: st.workers.drop i ∧
    (_push st i tg cf w).1.data = st.data ∧
    (_update_status st i s).data.get? i = some { t with status := s } := by
  have hg : ¬ (tg = "" ∨ cf = "") := by
    rintro (h | h)
    · exact htg h
    · exact hcf h
  refine ⟨?_, ?_, ?_⟩
  · unfold _push
    rw [if_neg hg]
    rfl
  · unfold _push
    rw [if_neg hg]
  · unfold _update_status
    rw [ht]
    exact list_set_get_self st.data i { t with status := s } (list_get_some_lt st.data i t ht)

/-- C4 amended claim, witnessed on a concrete board: pushing again at
position 0 (new worker id 2) while worker 1 is still registered there. -/
theorem c4_amended_witness :
    ("r1.example.com" ≠ "" ∧ "conf-a" ≠ "" ∧ c4Board.data.get? 0 = some taskA) ∧
    ((_push c4Board 0 "r1.example.com" "conf-a" 2).1.workers =
        c4Board.workers.take 0 ++ some 2 :: c4Board.workers.drop 0 ∧
      (_push c4Board 0 "r1.example.com" "conf-a" 2).1.data = c4Board.data ∧
      (_update_status c4Board 0 "Failed").data.get? 0 = some { taskA with status := "Failed" }) :=
  ⟨⟨by decide, by decide, by decide⟩,
    c4_amended_insert_shifts_and_applies c4Board 0 2 "r1.example.com" "conf-a" "Failed" taskA
      (by decide) (by decide) (by decide)⟩

/-- C6: every mutating store call (`append`, `__setitem__`, `remove`,
`clear`) synchronously rewrites the file inside the call, so afterwards
the on-disk document equals the in-memory list, a fresh `PersistantList`
constructed over that file loads exactly the in-memory list, and the
round-trip law `load(dump(store)) == store` holds for every store. -/
theorem c6_round_trip (p : PersistantList) (m : Mutation) :
    (applyMut p m).file = some (applyMut p m).mem ∧
    freshLoad (applyMut p m).file = (applyMut p m).mem ∧
    freshLoad (PersistantList.dump p).file = p.mem := by
  cases m <;> exact ⟨rfl, rfl, rfl⟩

/-- The singleton abort trace satisfies the status-sequence property. -/
theorem goodTrace_ab : goodTrace ["Aborted"] :=
  ⟨[], ["Aborted"], Or.inl rfl, Or.inr ⟨"Aborted", by decide, rfl⟩, rfl,
    by decide, by decide, by decide⟩

/-- The connect-failure trace satisfies the status-sequence property. -/
theorem goodTrace_cf : goodTrace ["Connecting", "Failed"] :=
  ⟨["Connecting"], ["Failed"], Or.inr (Or.inl rfl), Or.inr ⟨"Failed", by decide, rfl⟩, rfl,
    by decide, by decide, by decide⟩

/-- The checkpoint-2 abort trace satisfies the status-sequence property. -/
theorem goodTrace_ca : goodTrace ["Connecting", "Aborted"] :=
  ⟨["Connecting"], ["Aborted"], Or.inr (Or.inl rfl), Or.inr ⟨"Aborted", by decide, rfl⟩, rfl,
    by decide, by decide, by decide⟩

/-- The push-failure trace satisfies the status-sequence property. -/
theorem goodTrace_cpf : goodTrace ["Connecting", "Pushing", "Failed"] :=
  ⟨["Connecting", "Pushing"], ["Failed"], Or.inr (Or.inr rfl),
    Or.inr ⟨"Failed", by decide, rfl⟩, rfl, by decide, by decide, by decide⟩

/-- The checkpoint-3 abort trace satisfies the status-sequence property. -/
theorem goodTrace_cpa : goodTrace ["Connecting", "Pushing", "Aborted"] :=
  ⟨["Connecting", "Pushing"], ["Aborted"], Or.inr (Or.inr rfl),
    Or.inr ⟨"Aborted", by decide, rfl⟩, rfl, by decide, by decide, by decide⟩

/-- The success trace satisfies the status-sequence property. -/
theorem goodTrace_cpp : goodTrace ["Connecting", "Pushing", "Pushed"] :=
  ⟨["Connecting", "Pushing"], ["Pushed"], Or.inr (Or.inr rfl),
    Or.inr ⟨"Pushed", by decide, rfl⟩, rfl, by decide, by decide, by decide⟩

/-- C2: for every execution of `PushWorker.run` - any abort-flag values at
the three checkpoints and any outcomes of the fallible external calls -
the emitted status sequence is a truncated prefix of Connecting, Pushing
followed by at most one terminal status, with no status repeated, no
status after a terminal one, and at most one terminal status. -/
theorem c2_status_sequence (save : Bool) (e : Env) :
    goodTrace (PushWorker.run save e).emitted := by
  rcases e with ⟨a1, a2, a3, c, snd, sv⟩
  cases a1 <;> cases a2 <;> cases a3 <;> cases c <;> cases snd <;> cases sv <;> cases save <;>
    first
      | exact goodTrace_ab
      | exact goodTrace_cf
      | exact goodTrace_ca
      | exact goodTrace_cpf
      | exact goodTrace_cpa
      | exact goodTrace_cpp

/-- C7: (a) when the abort request arrives before the first checkpoint is
read (time at most 1), the worker emits "Aborted" as its only status and
never calls connect; (b) when the abort request arrives after "Pushed" has
been emitted (time at least 4, past checkpoint 3), the execution is
indistinguishable from one with no abort request at all, and in
particular, whenever "Pushed" was emitted, it is the last status - the
late abort request causes no further status transition. -/
theorem c7_abort_before_and_after (save cOk sOk svOk : Bool) (k k' : Nat)
    (hk : k ≤ 1) (hk' : 4 ≤ k') :
    ((runAt save cOk sOk svOk (some k)).emitted = ["Aborted"] ∧
      ExtCall.connect ∉ (runAt save cOk sOk svOk (some k)).calls) ∧
    runAt save cOk sOk svOk (some k') = runAt save cOk sOk svOk none ∧
    ("Pushed" ∈ (runAt save cOk sOk svOk (some k')).emitted →
      (runAt save cOk sOk svOk (some k')).emitted.getLast? = some "Pushed") := by
  have h1 : abortSeen (some k) 1 = true := decide_eq_true hk
  have b1 : abortSeen (some k') 1 = false := decide_eq_false (by omega)
  have b2 : abortSeen (some k') 2 = false := decide_eq_false (by omega)
  have b3 : abortSeen (some k') 3 = false := decide_eq_false (by omega)
  have e2 : envAt cOk sOk svOk (some k') = envAt cOk sOk svOk none := by
    simp only [envAt, abortSeen]
    simp only [decide_eq_false_iff_not, not_le, Env.mk.injEq, decide_eq_false (by omega : ¬ k' ≤ 1),
      decide_eq_false (by omega : ¬ k' ≤ 2), decide_eq_false (by omega : ¬ k' ≤ 3)]
  have r2 : runAt save cOk sOk svOk (some k') = runAt save cOk sOk svOk none := by
    unfold runAt
    rw [e2]
  refine ⟨⟨?_, ?_⟩, r2, ?_⟩
  · simp [runAt, envAt, h1, PushWorker.run]
  · simp [runAt, envAt, h1, PushWorker.run]
  · rw [r2]
    cases cOk <;> cases sOk <;> cases svOk <;> cases save <;> decide

/-- C7 witnessed: an abort requested at time 0 on an otherwise successful
environment yields the lone "Aborted"; an abort requested at time 4 leaves
the run identical to an unaborted one ending in "Pushed". -/
theorem c7_witness :
    ((0 : Nat) ≤ 1 ∧ (4 : Nat) ≤ 4) ∧
    (((runAt true true true true (some 0)).emitted = ["Aborted"] ∧
        ExtCall.connect ∉ (runAt true true true true (some 0)).calls) ∧
      runAt true true true true (some 4) = runAt true true true true none ∧
      ("Pushed" ∈ (runAt true true true true (some 4)).emitted →
        (runAt true true true true (some 4)).emitted.getLast? = some "Pushed")) :=
  ⟨⟨by decide, by decide⟩,
    c7_abort_before_and_after true true true true 0 4 (by decide) (by decide)⟩

/-- C8: every execution emits "Failed" at most once; when it is emitted it
is the final status of the run and no "Aborted" accompanies it (the
failure is not an explicit abort); whenever an external call raises on a
path not already returned from (the bare `except` is reached), exactly one
"Failed" is reported - `run` is a total function, so the exception never
escapes the worker; and applying a status event at position `i` leaves
every other store position and the whole handle list untouched. -/
theorem c8_failure_contained (save : Bool) (e : Env) (st : BoardState) (i j : Nat) (s : String)
    (hne : j ≠ i) :
    (PushWorker.run save e).emitted.count "Failed" ≤ 1 ∧
    ("Failed" ∈ (PushWorker.run save e).emitted →
      (PushWorker.run save e).emitted.getLast? = some "Failed" ∧
      "Aborted" ∉ (PushWorker.run save e).emitted) ∧
    (failEnv save e = true → (PushWorker.run save e).emitted.count "Failed" = 1) ∧
    (_update_status st i s).data.get? j = st.data.get? j ∧
    (_update_status st i s).workers = st.workers := by
  have hw : (PushWorker.run save e).emitted.count "Failed" ≤ 1 ∧
      ("Failed" ∈ (PushWorker.run save e).emitted →
        (PushWorker.run save e).emitted.getLast? = some "Failed" ∧
        "Aborted" ∉ (PushWorker.run save e).emitted) ∧
      (failEnv save e = true → (PushWorker.run save e).emitted.count "Failed" = 1) := by
    rcases e with ⟨a1, a2, a3, c, snd, sv⟩
    cases a1 <;> cases a2 <;> cases a3 <;> cases c <;> cases snd <;> cases sv <;> cases save <;>
      decide
  refine ⟨hw.1, hw.2.1, hw.2.2, ?_, ?_⟩
  · unfold _update_status
    rcases hg : st.data.get? i with _ | cd
    · rfl
    · exact list_set_get_ne st.data i j { cd with status := s } (Ne.symm hne)
  · unfold _update_status
    rcases hg : st.data.get? i with _ | cd
    · rfl
    · rfl

/-- Environment in which the connection attempt raises. -/
def envConnectFails : Env :=
  { abort1 := false, abort2 := false, abort3 := false,
    connectOk := false, sendOk := true, saveOk := true }

/-- A two-task board used to witness store isolation. -/
def c8Board : BoardState := { data := [taskA, taskB], workers := [none, none] }

/-- C8 witnessed: a connect failure yields exactly one final "Failed", and
applying it at position 0 leaves position 1 and the handles unchanged. -/
theorem c8_witness :
    ((1 : Nat) ≠ 0) ∧
    ((PushWorker.run true envConnectFails).emitted.count "Failed" ≤ 1 ∧
      ("Failed" ∈ (PushWorker.run true envConnectFails).emitted →
        (PushWorker.run true envConnectFails).emitted.getLast? = some "Failed" ∧
        "Aborted" ∉ (PushWorker.run true envConnectFails).emitted) ∧
      (failEnv true envConnectFails = true →
        (PushWorker.run true envConnectFails).emitted.count "Failed" = 1) ∧
      (_update_status c8Board 0 "Failed").data.get? 1 = c8Board.data.get? 1 ∧
      (_update_status c8Board 0 "Failed").workers = c8Board.workers) :=
  ⟨by decide, c8_failure_contained true envConnectFails c8Board 0 1 "Failed" (by decide)⟩

/-- Environment in which every external call succeeds and no abort is ever
requested. -/
def envAllOk : Env :=
  { abort1 := false, abort2 := false, abort3 := false,
    connectOk := true, sendOk := true, saveOk := true }

/-- C10: a worker created with `save=false` never calls `save_config`; a
worker created with `save=true` whose execution reaches the pushing step
unaborted and whose `send_config_set` returns calls `save_config` exactly
once, immediately after `send_config_set` (src/workers.py lines 50-54). -/
theorem c10_save_flag (save : Bool) (e : Env) :
    (save = false → ExtCall.saveConfig ∉ (PushWorker.run save e).calls) ∧
    (save = true → e.abort1 = false → e.connectOk = true → e.abort2 = false → e.sendOk = true →
      (PushWorker.run save e).calls.count ExtCall.saveConfig = 1 ∧
      (PushWorker.run save e).calls.take 3 =
        [ExtCall.connect, ExtCall.sendConfigSet, ExtCall.saveConfig]) := by
  rcases e with ⟨a1, a2, a3, c, snd, sv⟩
  cases a1 <;> cases a2 <;> cases a3 <;> cases c <;> cases snd <;> cases sv <;> cases save <;>
    decide

/-- C10 witnessed on the all-success environment with `save=true`. -/
theorem c10_witness :
    (PushWorker.run true envAllOk).calls.count ExtCall.saveConfig = 1 ∧
    (PushWorker.run true envAllOk).calls.take 3 =
      [ExtCall.connect, ExtCall.sendConfigSet, ExtCall.saveConfig] :=
  (c10_save_flag true envAllOk).2 rfl rfl rfl rfl rfl

/-- `_push` never touches the task store, only the handle list. -/
theorem push_data_eq (st : BoardState) (i : Nat) (tg cf : String) (w : Nat) :
    (_push st i tg cf w).1.data = st.data := by
  unfold _push
  split
  · rfl
  · rfl

/-- `_push` spawns exactly when both target and config are non-empty. -/
theorem push_spawn_mem (st : BoardState) (i : Nat) (tg cf : String) (w p : Nat) :
    p ∈ ((_push st i tg cf w).2.toList.map Prod.fst) ↔ (¬ (tg = "" ∨ cf = "") ∧ p = i) := by
  unfold _push
  by_cases hg : tg = "" ∨ cf = ""
  · simp [hg]
  · simp [hg]

/-- `pushable` unfolded to its three propositional conditions. -/
theorem pushable_iff (t : Task) :
    pushable t = true ↔ (t.status ≠ "Pushed" ∧ ¬ (t.target = "" ∨ t.config = "")) := by
  simp [pushable, not_or]
  tauto

/-- The push-all loop never touches the task store. -/
theorem pushAllFrom_data : ∀ (l : List Task) (st : BoardState) (i : Nat),
    (pushAllFrom st i l).1.data = st.data
  | [], _, _ => rfl
  | t :: rest, st, i => by
    by_cases h : t.status ≠ "Pushed"
    · simp only [pushAllFrom, if_pos h]
      show (pushAllFrom (_push st i t.target t.config i).1 (i + 1) rest).1.data = st.data
      rw [pushAllFrom_data rest (_push st i t.target t.config i).1 (i + 1), push_data_eq]
    · simp only [pushAllFrom, if_neg h]
      exact pushAllFrom_data rest st (i + 1)

/-- Spawn records of the push-all loop started at index `i`: position `p`
receives a fresh worker exactly when the record at `p` (offset into the
remaining list) is pushable. -/
theorem pushAllFrom_spawn : ∀ (l : List Task) (st : BoardState) (i p : Nat),
    (p ∈ (pushAllFrom st i l).2.map Prod.fst ↔
      ∃ j u, l.get? j = some u ∧ p = i + j ∧ pushable u = true)
  | [], st, i, p => by
    simp [pushAllFrom]
  | t :: rest, st, i, p => by
    by_cases h : t.status ≠ "Pushed"
    · simp only [pushAllFrom, if_pos h]
      show p ∈ ((_push st i t.target t.config i).2.toList ++
          (pushAllFrom (_push st i t.target t.config i).1 (i + 1) rest).2).map Prod.fst ↔ _
      rw [List.map_append, List.mem_append, push_spawn_mem st i t.target t.config i p,
        pushAllFrom_spawn rest (_push st i t.target t.config i).1 (i + 1) p]
      constructor
      · rintro (⟨hg, hpi⟩ | ⟨j, u, hu, hpj, hpu⟩)
        · exact ⟨0, t, rfl, by omega, (pushable_iff t).mpr ⟨h, hg⟩⟩
        · exact ⟨j + 1, u, hu, by omega, hpu⟩
      · rintro ⟨j, u, hu, hpj, hpu⟩
        cases j with
        | zero =>
          left
          have htu : t = u := Option.some.inj hu
          subst htu
          exact ⟨((pushable_iff t).mp hpu).2, by omega⟩
        | succ j' =>
          right
          exact ⟨j', u, hu, by omega, hpu⟩
    · simp only [pushAllFrom, if_neg h]
      rw [pushAllFrom_spawn rest st (i + 1) p]
      constructor
      · rintro ⟨j, u, hu, hpj, hpu⟩
        exact ⟨j + 1, u, hu, by omega, hpu⟩
      · rintro ⟨j, u, hu, hpj, hpu⟩
        cases j with
        | zero =>
          have htu : t = u := Option.some.inj hu
          subst htu
          exact absurd ((pushable_iff t).mp hpu).1 h
        | succ j' =>
          exact ⟨j', u, hu, by omega, hpu⟩

/-- The push-selected loop never touches the task store. -/
theorem pushSelectedGo_data : ∀ (sel : List Nat) (st : BoardState),
    (pushSelectedGo st sel).1.data = st.data
  | [], _ => rfl
  | q :: rest, st => by
    simp only [pushSelectedGo]
    split
    · rfl
    · rename_i cd heq
      by_cases h : cd.status ≠ "Pushed"
      · rw [if_pos h]
        show (pushSelectedGo (_push st q cd.target cd.config q).1 rest).1.data = st.data
        rw [pushSelectedGo_data rest (_push st q cd.target cd.config q).1, push_data_eq]
      · rw [if_neg h]
        exact pushSelectedGo_data rest st

/-- Spawn records of the push-selected loop over iteration order `sel`
(all positions valid): position `p` receives a fresh worker exactly when
`p` is selected and the record at `p` is pushable. -/
theorem pushSelectedGo_spawn : ∀ (sel : List Nat) (st : BoardState) (p : Nat),
    (∀ q ∈ sel, q < st.data.length) →
    (p ∈ (pushSelectedGo st sel).2.map Prod.fst ↔
      ∃ u, p ∈ sel ∧ st.data.get? p = some u ∧ pushable u = true)
  | [], st, p, _ => by
    simp [pushSelectedGo]
  | q :: rest, st, p, hv => by
    obtain ⟨cd, hq⟩ := list_lt_get_some st.data q (hv q (List.mem_cons_self q rest))
    have hvrest : ∀ x ∈ rest, x < st.data.length :=
      fun x hx => hv x (List.mem_cons_of_mem q hx)
    simp only [pushSelectedGo]
    split
    · rename_i heq
      rw [hq] at heq
      exact absurd heq (by simp)
    · rename_i cd' heq
      rw [hq] at heq
      have hcc : cd = cd' := Option.some.inj heq
      subst hcc
      by_cases h : cd.status ≠ "Pushed"
      · rw [if_pos h]
        show p ∈ ((_push st q cd.target cd.config q).2.toList ++
            (pushSelectedGo (_push st q cd.target cd.config q).1 rest).2).map Prod.fst ↔ _
        rw [List.map_append, List.mem_append, push_spawn_mem st q cd.target cd.config q p,
          pushSelectedGo_spawn rest (_push st q cd.target cd.config q).1 p
            (by rw [push_data_eq]; exact hvrest)]
        rw [push_data_eq]
        constructor
        · rintro (⟨hg, hpq⟩ | ⟨u, hmem, hu, hpu⟩)
          · subst hpq
            exact ⟨cd, List.mem_cons_self p rest, hq, (pushable_iff cd).mpr ⟨h, hg⟩⟩
          · exact ⟨u, List.mem_cons_of_mem q hmem, hu, hpu⟩
        · rintro ⟨u, hmem, hu, hpu⟩
          rcases List.mem_cons.mp hmem with hpq | hmem'
          · subst hpq
            left
            rw [hq] at hu
            have hcu : cd = u := Option.some.inj hu
            subst hcu
            exact ⟨((pushable_iff cd).mp hpu).2, rfl⟩
          · right
            exact ⟨u, hmem', hu, hpu⟩
      · rw [if_neg h]
        rw [pushSelectedGo_spawn rest st p hvrest]
        constructor
        · rintro ⟨u, hmem, hu, hpu⟩
          exact ⟨u, List.mem_cons_of_mem q hmem, hu, hpu⟩
        · rintro ⟨u, hmem, hu, hpu⟩
          rcases List.mem_cons.mp hmem with hpq | hmem'
          · subst hpq
            rw [hq] at hu
            have hcu : cd = u := Option.some.inj hu
            subst hcu
            exact absurd ((pushable_iff cd).mp hpu).1 h
          · exact ⟨u, hmem', hu, hpu⟩

/-- C9: for a position `p` holding record `t` (with the data-model
invariant that target and config are non-empty), `push_all` and
`push_selected` never modify the task store (so the status at `p` is
unchanged), spawn no worker for `p` when its status is "Pushed", and do
spawn a worker for `p` when its status is anything else (for
`push_selected`, provided `p` is among the selected positions, all of
which must be valid rows). -/
theorem c9_pushed_is_noop (st : BoardState) (p : Nat) (t : Task) (sel : List Nat)
    (hp : st.data.get? p = some t)
    (hsel : ∀ q ∈ sel, q < st.data.length) :
    ((push_all st).1.data = st.data ∧ (push_selected st sel).1.data = st.data) ∧
    (t.status = "Pushed" →
      p ∉ (push_all st).2.map Prod.fst ∧ p ∉ (push_selected st sel).2.map Prod.fst) ∧
    (t.status ≠ "Pushed" → t.target ≠ "" → t.config ≠ "" →
      p ∈ (push_all st).2.map Prod.fst ∧
      (p ∈ sel → p ∈ (push_selected st sel).2.map Prod.fst)) := by
  refine ⟨⟨pushAllFrom_data st.data st 0, pushSelectedGo_data sel st⟩, ?_, ?_⟩
  · intro hstat
    constructor
    · intro hmem
      obtain ⟨j, u, hu, hpj, hpu⟩ := (pushAllFrom_spawn st.data st 0 p).mp hmem
      have hj : j = p := by omega
      rw [hj, hp] at hu
      have htu : t = u := Option.some.inj hu
      subst htu
      exact absurd hstat ((pushable_iff t).mp hpu).1
    · intro hmem
      obtain ⟨u, hmemsel, hu, hpu⟩ := (pushSelectedGo_spawn sel st p hsel).mp hmem
      rw [hp] at hu
      have htu : t = u := Option.some.inj hu
      subst htu
      exact absurd hstat ((pushable_iff t).mp hpu).1
  · intro hstat htg hcf
    have hpu : pushable t = true :=
      (pushable_iff t).mpr ⟨hstat, fun hor => hor.elim htg hcf⟩
    constructor
    · exact (pushAllFrom_spawn st.data st 0 p).mpr ⟨p, t, hp, by omega, hpu⟩
    · intro hpsel
      exact (pushSelectedGo_spawn sel st p hsel).mpr ⟨t, hpsel, hp, hpu⟩

/-- A record already in status "Pushed". -/
def taskPushed : Task :=
  { target := "r1.example.com", config := "conf-a", save := true, status := "Pushed" }

/-- A two-task board whose position 0 is already "Pushed". -/
def c9Board : BoardState := { data := [taskPushed, taskB], workers := [none, none] }

/-- C9 witnessed: on a board whose position 0 is already "Pushed",
`push_all` and `push_selected [0, 1]` leave the store unchanged and spawn
no worker bound to position 0. -/
theorem c9_witness :
    (c9Board.data.get? 0 = some taskPushed ∧ ∀ q ∈ [0, 1], q < c9Board.data.length) ∧
    (((push_all c9Board).1.data = c9Board.data ∧
        (push_selected c9Board [0, 1]).1.data = c9Board.data) ∧
      (taskPushed.status = "Pushed" →
        0 ∉ (push_all c9Board).2.map Prod.fst ∧
        0 ∉ (push_selected c9Board [0, 1]).2.map Prod.fst) ∧
      (taskPushed.status ≠ "Pushed" → taskPushed.target ≠ "" → taskPushed.config ≠ "" →
        0 ∈ (push_all c9Board).2.map Prod.fst ∧
        (0 ∈ [0, 1] → 0 ∈ (push_selected c9Board [0, 1]).2.map Prod.fst))) :=
  ⟨⟨by decide, by decide⟩,
    c9_pushed_is_noop c9Board 0 taskPushed [0, 1] (by decide) (by decide)⟩

end PushBoard
